import Mathlib

/-!
# Smart-safe controller: verification of the sensor pipeline and unlock flow

Shallow embedding of the smart-safe repository (Next.js/TypeScript).
JavaScript numbers are modelled as exact rationals (`ℚ`), timestamps as
integers (milliseconds, `ℤ`).  Where the source compares `Math.sqrt(s)`
against a constant `c`, the embedding uses the equivalent executable
comparison of `s` against `c^2` (the equivalence over the reals is proved
by the bridge lemmas below).  Fallible API routes return a status record;
stateful handlers are explicit state-passing functions.
-/

namespace SmartSafe

/-- A 3-axis sensor reading (admin/page.tsx, server.ts: `{x, y, z}`). -/
structure Vec3 where
  x : ℚ
  y : ℚ
  z : ℚ
deriving DecidableEq

/-- `SensorData` from admin/page.tsx and server.ts. -/
structure SensorData where
  accelerometer : Vec3
  gyroscope : Vec3
  timestamp : ℤ
deriving DecidableEq

/-- `reduce((a, b) => a + b, 0)` over a queue of rationals. -/
def qsum (l : List ℚ) : ℚ := l.foldl (· + ·) 0

/-- The three per-axis smoothing queues `accelBufferRef.current` of
admin/page.tsx (initially all empty). -/
structure AccelBuffers where
  x : List ℚ
  y : List ℚ
  z : List ℚ
deriving DecidableEq

/-- `bufferSize = 5` in `smoothAccelerometer`. -/
def bufferSize : ℕ := 5

/-- Translation of `smoothAccelerometer` (admin/page.tsx lines 99-130):
push the new per-axis values, shift (drop the oldest element of every
queue) once the x-queue length exceeds `bufferSize`, then return the
arithmetic mean of each queue, subtracting 5 from the Z mean. -/
def smoothAccelerometer (buf : AccelBuffers) (x y z : ℚ) :
    AccelBuffers × (ℚ × ℚ × ℚ) :=
  let bx := buf.x ++ [x]
  let bY := buf.y ++ [y]
  let bz := buf.z ++ [z]
  let bx2 := if bufferSize < bx.length then bx.tail else bx
  let bY2 := if bufferSize < bx.length then bY.tail else bY
  let bz2 := if bufferSize < bx.length then bz.tail else bz
  let avgX := qsum bx2 / bx2.length
  let avgY := qsum bY2 / bY2.length
  let avgZ := qsum bz2 / bz2.length
  (⟨bx2, bY2, bz2⟩, (avgX, avgY, avgZ - 5))

/-- The buffer state after feeding a list of raw accelerometer samples
(x, y, z) through `smoothAccelerometer`, starting from given buffers. -/
def smoothState (buf : AccelBuffers) (l : List (ℚ × ℚ × ℚ)) : AccelBuffers :=
  l.foldl (fun b p => (smoothAccelerometer b p.1 p.2.1 p.2.2).1) buf

/-- The last `n` elements of a list (spec wording: "the last min(5, n) raw
values"; this keeps the final `min n l.length` elements). -/
def lastN (n : ℕ) (l : List ℚ) : List ℚ := l.drop (l.length - n)

/-- Arithmetic mean, as the spec words it. -/
def mean (l : List ℚ) : ℚ := qsum l / l.length

theorem lastN_length (n : ℕ) (l : List ℚ) : (lastN n l).length = min n l.length := by
  simp only [lastN, List.length_drop]
  omega

theorem lastN_push_of_short (v : ℚ) (l : List ℚ) (h : l.length < 5) :
    lastN 5 (l ++ [v]) = lastN 5 l ++ [v] := by
  have h1 : l.length - 5 = 0 := by omega
  have h2 : (l ++ [v]).length - 5 = 0 := by simp; omega
  rw [lastN, lastN, h1, h2, List.drop_zero, List.drop_zero]

theorem lastN_push_of_full (v : ℚ) (l : List ℚ) (h : 5 ≤ l.length) :
    lastN 5 (l ++ [v]) = (lastN 5 l ++ [v]).tail := by
  have h2 : lastN 5 l ++ [v] = (l ++ [v]).drop (l.length - 5) := by
    rw [lastN, List.drop_append_of_le_length (by omega)]
  rw [lastN, h2, List.tail_drop]
  congr 1
  simp
  omega

/-- Running the smoother from empty buffers over samples `l` leaves each
queue holding exactly the last `min 5 n` raw values of its axis. -/
theorem smoothState_eq (l : List (ℚ × ℚ × ℚ)) :
    smoothState ⟨[], [], []⟩ l =
      ⟨lastN 5 (l.map (fun p => p.1)), lastN 5 (l.map (fun p => p.2.1)),
       lastN 5 (l.map (fun p => p.2.2))⟩ := by
  induction l using List.reverseRecOn with
  | nil => simp [smoothState, lastN]
  | append_singleton l v ih =>
    have hstep : smoothState ⟨[], [], []⟩ (l ++ [v]) =
        (smoothAccelerometer (smoothState ⟨[], [], []⟩ l) v.1 v.2.1 v.2.2).1 := by
      simp [smoothState, List.foldl_append]
    rw [hstep, ih]
    have hxlen : (lastN 5 (l.map (fun p => p.1))).length = min 5 l.length := by
      rw [lastN_length]; simp
    simp only [List.map_append, List.map_cons, List.map_nil]
    by_cases hlong : 5 ≤ l.length
    · have hcond : bufferSize < (lastN 5 (l.map (fun p => p.1)) ++ [v.1]).length := by
        simp only [List.length_append, List.length_cons, List.length_nil, hxlen, bufferSize]
        omega
      simp only [smoothAccelerometer, if_pos hcond]
      congr 1
      · rw [lastN_push_of_full _ _ (by simp; omega)]
      · rw [lastN_push_of_full _ _ (by simp; omega)]
      · rw [lastN_push_of_full _ _ (by simp; omega)]
    · have hcond : ¬ bufferSize < (lastN 5 (l.map (fun p => p.1)) ++ [v.1]).length := by
        simp only [List.length_append, List.length_cons, List.length_nil, hxlen, bufferSize]
        omega
      simp only [smoothAccelerometer, if_neg hcond]
      congr 1
      · rw [lastN_push_of_short _ _ (by simp; omega)]
      · rw [lastN_push_of_short _ _ (by simp; omega)]
      · rw [lastN_push_of_short _ _ (by simp; omega)]

/-- C2: for every sequence of accelerometer samples (here: any history `l`
followed by an n-th sample `(x, y, z)`), the value returned by
`smoothAccelerometer` equals the arithmetic mean of the last `min 5 n` raw
values of each axis, with the Z output offset by `-5` and the X and Y
outputs plain means; the window really holds `min 5 n` values. -/
theorem c2_smoother_moving_average (l : List (ℚ × ℚ × ℚ)) (x y z : ℚ) :
    (smoothAccelerometer (smoothState ⟨[], [], []⟩ l) x y z).2 =
      (mean (lastN 5 ((l ++ [(x, y, z)]).map (fun p => p.1))),
       mean (lastN 5 ((l ++ [(x, y, z)]).map (fun p => p.2.1))),
       mean (lastN 5 ((l ++ [(x, y, z)]).map (fun p => p.2.2))) - 5) ∧
    (lastN 5 ((l ++ [(x, y, z)]).map (fun p => p.2.2))).length =
      min 5 (l ++ [(x, y, z)]).length := by
  constructor
  · have hbuf : (smoothAccelerometer (smoothState ⟨[], [], []⟩ l) x y z).1 =
        smoothState ⟨[], [], []⟩ (l ++ [(x, y, z)]) := by
      simp [smoothState, List.foldl_append]
    have houts : ∀ b : AccelBuffers, ∀ xv yv zv : ℚ,
        (smoothAccelerometer b xv yv zv).2 =
          (mean (smoothAccelerometer b xv yv zv).1.x,
           mean (smoothAccelerometer b xv yv zv).1.y,
           mean (smoothAccelerometer b xv yv zv).1.z - 5) := by
      intro b xv yv zv
      simp only [smoothAccelerometer, mean]
    rw [houts, hbuf, smoothState_eq]
  · rw [lastN_length]
    simp

/-! ## Anomaly detector (admin/page.tsx `handleSensorData`, server.ts) -/

/-- Squared accelerometer magnitude.  The source computes
`Math.sqrt(x**2 + y**2 + z**2)` and compares the root against constants;
the embedding keeps the (exact, executable) square and compares against
the squared constants — `sqrt_gt_fifty_iff` and `sqrt_lt_tenth_iff` below
prove the two comparisons equivalent over ℝ. -/
def magnitudeSq (a : Vec3) : ℚ := a.x ^ 2 + a.y ^ 2 + a.z ^ 2

theorem magnitudeSq_nonneg (a : Vec3) : 0 ≤ magnitudeSq a := by
  have hx : (0 : ℚ) ≤ a.x ^ 2 := sq_nonneg _
  have hy : (0 : ℚ) ≤ a.y ^ 2 := sq_nonneg _
  have hz : (0 : ℚ) ≤ a.z ^ 2 := sq_nonneg _
  simp only [magnitudeSq]
  linarith

/-- Bridge: `Math.sqrt(s) > 50` is `s > 2500` (the theft guard of both
server.ts and admin/page.tsx). -/
theorem sqrt_gt_fifty_iff (q : ℚ) :
    50 < Real.sqrt (q : ℝ) ↔ 2500 < q := by
  rw [Real.lt_sqrt (by norm_num)]
  constructor
  · intro h
    have : ((2500 : ℚ) : ℝ) < (q : ℝ) := by push_cast; linarith
    exact_mod_cast this
  · intro h
    have : ((2500 : ℚ) : ℝ) < (q : ℝ) := by exact_mod_cast h
    push_cast at this
    linarith

/-- Bridge: `Math.sqrt(s) < 0.1` is `s < 1/100` (the ghost-mode guard of
server.ts). -/
theorem sqrt_lt_tenth_iff (q : ℚ) :
    Real.sqrt (q : ℝ) < 1 / 10 ↔ q < 1 / 100 := by
  rw [Real.sqrt_lt' (by norm_num)]
  constructor
  · intro h
    have : (q : ℝ) < ((1 / 100 : ℚ) : ℝ) := by push_cast; linarith
    exact_mod_cast this
  · intro h
    have : (q : ℝ) < ((1 / 100 : ℚ) : ℝ) := by exact_mod_cast h
    push_cast at this
    linarith

/-- `MOVEMENT_EVENT_COOLDOWN = 5000` (admin/page.tsx line 71). -/
def MOVEMENT_EVENT_COOLDOWN : ℤ := 5000

/-- The module-level mutable state of the dashboard's detection logic:
the smoothing buffers and the shared movement-cooldown timestamp
`lastMovementEventRef` (initially 0). -/
structure DetectorState where
  buffers : AccelBuffers
  lastMovementEvent : ℤ
deriving DecidableEq

/-- One axis reading recorded in movement-event metadata
(admin/page.tsx lines 230-235). -/
inductive AxisReading where
  | accelX (v : ℚ)
  | accelY (v : ℚ)
  | gyroX (v : ℚ)
  | gyroY (v : ℚ)
  | gyroZ (v : ℚ)
deriving DecidableEq

/-- An event POSTed to `/api/events` by `handleSensorData`.  The source
logs `magnitude` (the square root); the embedding records its square. -/
inductive ClientEvent where
  | theftDetected (magnitudeSq : ℚ)
  | movementDetected (metadata : List AxisReading)
deriving DecidableEq

/-- `accelXExceeded`, ..., `gyroZExceeded` (admin/page.tsx 214-218):
`Math.abs v > threshold`. -/
def exceeds (v threshold : ℚ) : Bool := decide (threshold < |v|)

/-- The movement-qualification disjunction (admin/page.tsx 220-225). -/
def movementQualifies (d : SensorData) : Bool :=
  exceeds d.accelerometer.x 5 || exceeds d.accelerometer.y 5 ||
    exceeds d.gyroscope.x 2 || exceeds d.gyroscope.y 2 || exceeds d.gyroscope.z 2

/-- A movement event fires when the sample qualifies and the shared
cooldown window has elapsed: `now - lastMovementEventRef.current >
MOVEMENT_EVENT_COOLDOWN` (admin/page.tsx line 226). -/
def movementFires (st : DetectorState) (d : SensorData) (now : ℤ) : Bool :=
  movementQualifies d && decide (MOVEMENT_EVENT_COOLDOWN < now - st.lastMovementEvent)

/-- The metadata of a movement event: one entry per axis whose absolute
value exceeded its threshold (admin/page.tsx 230-235). -/
def movementMetadata (d : SensorData) : List AxisReading :=
  (if exceeds d.accelerometer.x 5 then [AxisReading.accelX d.accelerometer.x] else []) ++
  (if exceeds d.accelerometer.y 5 then [AxisReading.accelY d.accelerometer.y] else []) ++
  (if exceeds d.gyroscope.x 2 then [AxisReading.gyroX d.gyroscope.x] else []) ++
  (if exceeds d.gyroscope.y 2 then [AxisReading.gyroY d.gyroscope.y] else []) ++
  (if exceeds d.gyroscope.z 2 then [AxisReading.gyroZ d.gyroscope.z] else [])

/-- Translation of the detection part of `handleSensorData`
(admin/page.tsx 133-246): smooth the accelerometer (chart rendering is
omitted — it writes no events), log a `theft_detected` event whenever the
raw magnitude exceeds 50 (no cooldown), then log a `movement_detected`
event when a movement check trips outside the shared 5000 ms cooldown,
updating `lastMovementEventRef` to `now`. -/
def handleSensorData (st : DetectorState) (d : SensorData) (now : ℤ) :
    DetectorState × List ClientEvent :=
  let buffers :=
    (smoothAccelerometer st.buffers d.accelerometer.x d.accelerometer.y d.accelerometer.z).1
  let theftEvents :=
    if 2500 < magnitudeSq d.accelerometer
      then [ClientEvent.theftDetected (magnitudeSq d.accelerometer)] else []
  if movementFires st d now then
    (⟨buffers, now⟩, theftEvents ++ [ClientEvent.movementDetected (movementMetadata d)])
  else
    (⟨buffers, st.lastMovementEvent⟩, theftEvents)

/-- A message emitted over the socket by server.ts. -/
inductive ServerMsg where
  | sensorData (d : SensorData)
  | theftAlert (magnitudeSq : ℚ) (timestamp : ℤ)
  | ghostModeAlert (timestamp : ℤ)
deriving DecidableEq

/-- Translation of the `"sensor-data"` socket handler (server.ts 47-84):
push the sample into the bounded store (drop the oldest past 100),
broadcast it, emit a `theft-alert` when the raw magnitude exceeds 50
(no cooldown of any kind), and a `ghost-mode-alert` on near-total
stillness. -/
def serverOnSensorData (store : List SensorData) (d : SensorData) (now : ℤ) :
    List SensorData × List ServerMsg :=
  let store2 := store ++ [d]
  let store3 := if 100 < store2.length then store2.tail else store2
  let msgs := [ServerMsg.sensorData d]
  let msgs2 :=
    if 2500 < magnitudeSq d.accelerometer
      then msgs ++ [ServerMsg.theftAlert (magnitudeSq d.accelerometer) now] else msgs
  let msgs3 :=
    if magnitudeSq d.accelerometer < 1 / 100 ∧ |d.gyroscope.x| < 1 / 10 ∧
        |d.gyroscope.y| < 1 / 10 ∧ |d.gyroscope.z| < 1 / 10
      then msgs2 ++ [ServerMsg.ghostModeAlert now] else msgs2
  (store3, msgs3)

/-- C3: any sample whose raw accelerometer magnitude
`sqrt(x² + y² + z²)` exceeds 50 produces a theft verdict on that very
sample — a `theft_detected` event from the dashboard handler for every
detector state (in particular, for every movement-cooldown timestamp),
and a `theft-alert` broadcast from the server handler for every store
state.  Neither check consults any cooldown. -/
theorem c3_theft_always_emitted (st : DetectorState) (store : List SensorData)
    (d : SensorData) (nowC nowS : ℤ)
    (h : 50 < Real.sqrt ((magnitudeSq d.accelerometer : ℚ) : ℝ)) :
    ClientEvent.theftDetected (magnitudeSq d.accelerometer) ∈
      (handleSensorData st d nowC).2 ∧
    ServerMsg.theftAlert (magnitudeSq d.accelerometer) nowS ∈
      (serverOnSensorData store d nowS).2 := by
  rw [sqrt_gt_fifty_iff] at h
  constructor
  · simp only [handleSensorData, if_pos h]
    by_cases hm : movementFires st d nowC <;> simp [hm]
  · simp only [serverOnSensorData, if_pos h]
    split <;> simp

/-- Witness for C3 at the concrete sample (60, 0, 0) with magnitude 60. -/
theorem c3_theft_always_emitted_witness :
    ClientEvent.theftDetected
        (magnitudeSq (Vec3.mk 60 0 0)) ∈
      (handleSensorData ⟨⟨[], [], []⟩, 0⟩
        (SensorData.mk (Vec3.mk 60 0 0) (Vec3.mk 0 0 0) 0) 0).2 ∧
    ServerMsg.theftAlert (magnitudeSq (Vec3.mk 60 0 0)) 0 ∈
      (serverOnSensorData []
        (SensorData.mk (Vec3.mk 60 0 0) (Vec3.mk 0 0 0) 0) 0).2 :=
  c3_theft_always_emitted ⟨⟨[], [], []⟩, 0⟩ []
    (SensorData.mk (Vec3.mk 60 0 0) (Vec3.mk 0 0 0) 0) 0 0
    (by
      have h1 : (((magnitudeSq (Vec3.mk 60 0 0)) : ℚ) : ℝ) = 3600 := by
        norm_num [magnitudeSq]
      rw [h1, show (3600 : ℝ) = 60 ^ 2 by norm_num,
        Real.sqrt_sq (by norm_num : (0 : ℝ) ≤ 60)]
      norm_num)

/-- The detector state before processing the k-th of a list of
(sample, now) inputs, starting from `st`. -/
def stateAt : DetectorState → List (SensorData × ℤ) → ℕ → DetectorState
  | st, _, 0 => st
  | st, [], _ + 1 => st
  | st, p :: rest, k + 1 => stateAt (handleSensorData st p.1 p.2).1 rest k

/-- Whether the k-th input of a processing run fires a movement event. -/
def firedAt (st : DetectorState) (l : List (SensorData × ℤ)) (k : ℕ) : Bool :=
  match l[k]? with
  | some p => movementFires (stateAt st l k) p.1 p.2
  | none => false

theorem lastMovement_step (st : DetectorState) (d : SensorData) (now : ℤ) :
    (handleSensorData st d now).1.lastMovementEvent =
      if movementFires st d now then now else st.lastMovementEvent := by
  simp only [handleSensorData]
  split <;> rfl

theorem stateAt_cons_succ (st : DetectorState) (p : SensorData × ℤ)
    (rest : List (SensorData × ℤ)) (k : ℕ) :
    stateAt st (p :: rest) (k + 1) = stateAt (handleSensorData st p.1 p.2).1 rest k := rfl

theorem stateAt_zero (st : DetectorState) (l : List (SensorData × ℤ)) :
    stateAt st l 0 = st := by
  cases l <;> rfl

theorem firedAt_cons_succ (st : DetectorState) (p : SensorData × ℤ)
    (rest : List (SensorData × ℤ)) (k : ℕ) :
    firedAt st (p :: rest) (k + 1) = firedAt (handleSensorData st p.1 p.2).1 rest k := by
  simp [firedAt, stateAt_cons_succ]

/-- A lower bound on the shared cooldown timestamp survives processing,
provided every remaining input time also respects it. -/
theorem lastMovement_lower (t : ℤ) :
    ∀ (l : List (SensorData × ℤ)) (st : DetectorState) (j : ℕ),
      t ≤ st.lastMovementEvent → (∀ p ∈ l, t ≤ p.2) →
      t ≤ (stateAt st l j).lastMovementEvent := by
  intro l
  induction l with
  | nil =>
    intro st j hst _
    cases j <;> exact hst
  | cons q rest ih =>
    intro st j hst hall
    cases j with
    | zero => exact hst
    | succ k =>
      rw [stateAt_cons_succ]
      apply ih _ k
      · rw [lastMovement_step]
        split
        · exact hall q (by simp)
        · exact hst
      · intro p hp
        exact hall p (by simp [hp])

/-- After a movement event fires at position `i`, the shared cooldown
timestamp at any later position `j` is at least the firing time, as long
as input times are non-decreasing. -/
theorem fired_lower :
    ∀ (l : List (SensorData × ℤ)) (st : DetectorState) (i j : ℕ) (p : SensorData × ℤ),
      i < j → j ≤ l.length →
      l.Pairwise (fun a b => a.2 ≤ b.2) →
      firedAt st l i = true →
      l[i]? = some p →
      p.2 ≤ (stateAt st l j).lastMovementEvent := by
  intro l
  induction l with
  | nil =>
    intro st i j p hij hj _ _ _
    simp at hj
    omega
  | cons q rest ih =>
    intro st i j p hij hj hmono hfired hp
    rcases List.pairwise_cons.mp hmono with ⟨hq, hrest⟩
    cases i with
    | zero =>
      have hqp : q = p := by simpa using hp
      have h2 : q.2 = p.2 := by rw [hqp]
      obtain ⟨k, rfl⟩ : ∃ k, j = k + 1 := ⟨j - 1, by omega⟩
      rw [stateAt_cons_succ]
      apply lastMovement_lower
      · rw [lastMovement_step]
        have hf : movementFires st q.1 q.2 = true := by
          simpa [firedAt, stateAt_zero] using hfired
        rw [if_pos hf]
        omega
      · intro r hr
        have := hq r hr
        omega
    | succ i2 =>
      obtain ⟨k, rfl⟩ : ∃ k, j = k + 1 := ⟨j - 1, by omega⟩
      rw [stateAt_cons_succ]
      apply ih _ i2 k p (by omega) (by simpa using hj) hrest
      · rw [← firedAt_cons_succ]
        exact hfired
      · simpa using hp

/-- C4: (1) for any two movement-qualifying inputs processed in order
with non-decreasing clock readings less than 5000 ms apart, at most one
fires a `movement_detected` event — the single shared cooldown timestamp
suppresses the second regardless of which axes triggered either sample;
(2) a `movement_detected` event is emitted by a step exactly when
`movementFires` holds there; (3) the emitted metadata contains exactly
the axes whose readings exceeded their thresholds. -/
theorem c4_movement_cooldown :
    (∀ (st : DetectorState) (l : List (SensorData × ℤ)) (i j : ℕ)
      (hi : i < l.length) (hj : j < l.length),
      i < j →
      l.Pairwise (fun a b => a.2 ≤ b.2) →
      l[j].2 - l[i].2 < 5000 →
      movementQualifies l[i].1 = true →
      movementQualifies l[j].1 = true →
      ¬(firedAt st l i = true ∧ firedAt st l j = true)) ∧
    (∀ (st : DetectorState) (d : SensorData) (now : ℤ),
      (∃ md, ClientEvent.movementDetected md ∈ (handleSensorData st d now).2) ↔
        movementFires st d now = true) ∧
    (∀ d : SensorData,
      (AxisReading.accelX d.accelerometer.x ∈ movementMetadata d ↔ 5 < |d.accelerometer.x|) ∧
      (AxisReading.accelY d.accelerometer.y ∈ movementMetadata d ↔ 5 < |d.accelerometer.y|) ∧
      (AxisReading.gyroX d.gyroscope.x ∈ movementMetadata d ↔ 2 < |d.gyroscope.x|) ∧
      (AxisReading.gyroY d.gyroscope.y ∈ movementMetadata d ↔ 2 < |d.gyroscope.y|) ∧
      (AxisReading.gyroZ d.gyroscope.z ∈ movementMetadata d ↔ 2 < |d.gyroscope.z|)) := by
  refine ⟨?_, ?_, ?_⟩
  · intro st l i j hi hj hij hmono hclose _ _ hboth
    obtain ⟨fi, fj⟩ := hboth
    have hpi : l[i]? = some l[i] := List.getElem?_eq_getElem hi
    have hpj : l[j]? = some l[j] := List.getElem?_eq_getElem hj
    have hlow : (l[i]).2 ≤ (stateAt st l j).lastMovementEvent :=
      fired_lower l st i j l[i] hij (by omega) hmono fi hpi
    have hfj : movementFires (stateAt st l j) (l[j]).1 (l[j]).2 = true := by
      simpa [firedAt, hpj] using fj
    have hcool : MOVEMENT_EVENT_COOLDOWN <
        (l[j]).2 - (stateAt st l j).lastMovementEvent := by
      have := (Bool.and_eq_true _ _).mp hfj
      exact of_decide_eq_true this.2
    simp only [MOVEMENT_EVENT_COOLDOWN] at hcool
    omega
  · intro st d now
    constructor
    · rintro ⟨md, hmd⟩
      by_contra hnot
      simp only [Bool.not_eq_true] at hnot
      simp only [handleSensorData, hnot, Bool.false_eq_true, if_false] at hmd
      split at hmd <;> simp_all
    · intro hf
      refine ⟨movementMetadata d, ?_⟩
      simp only [handleSensorData, hf, if_true]
      simp
  · intro d
    refine ⟨?_, ?_, ?_, ?_, ?_⟩ <;>
      simp only [movementMetadata, exceeds, List.mem_append] <;>
      constructor <;> intro h
    · rcases h with ((((h | h) | h) | h) | h) <;> split at h <;> simp_all
    · left; left; left; left
      simp [h]
    · rcases h with ((((h | h) | h) | h) | h) <;> split at h <;> simp_all
    · left; left; left; right
      simp [h]
    · rcases h with ((((h | h) | h) | h) | h) <;> split at h <;> simp_all
    · left; left; right
      simp [h]
    · rcases h with ((((h | h) | h) | h) | h) <;> split at h <;> simp_all
    · left; right
      simp [h]
    · rcases h with ((((h | h) | h) | h) | h) <;> split at h <;> simp_all
    · right
      simp [h]

/-- Witness for C4: two qualifying samples (|x| = 6 > 5) at clock times
10000 and 12000 (2000 ms apart) fire at most one movement event, and the
X-axis reading appears in the metadata. -/
theorem c4_movement_cooldown_witness :
    ¬(firedAt ⟨⟨[], [], []⟩, 0⟩
        [(SensorData.mk (Vec3.mk 6 0 0) (Vec3.mk 0 0 0) 10000, 10000),
         (SensorData.mk (Vec3.mk 6 0 0) (Vec3.mk 0 0 0) 12000, 12000)] 0 = true ∧
      firedAt ⟨⟨[], [], []⟩, 0⟩
        [(SensorData.mk (Vec3.mk 6 0 0) (Vec3.mk 0 0 0) 10000, 10000),
         (SensorData.mk (Vec3.mk 6 0 0) (Vec3.mk 0 0 0) 12000, 12000)] 1 = true) ∧
    (AxisReading.accelX (6 : ℚ) ∈
        movementMetadata (SensorData.mk (Vec3.mk 6 0 0) (Vec3.mk 0 0 0) 10000) ↔
      5 < |(6 : ℚ)|) :=
  ⟨c4_movement_cooldown.1 ⟨⟨[], [], []⟩, 0⟩
      [(SensorData.mk (Vec3.mk 6 0 0) (Vec3.mk 0 0 0) 10000, 10000),
       (SensorData.mk (Vec3.mk 6 0 0) (Vec3.mk 0 0 0) 12000, 12000)] 0 1
      (by decide) (by decide) (by decide)
      (by simp [List.pairwise_cons]) (by decide) (by decide) (by decide),
    (c4_movement_cooldown.2.2 (SensorData.mk (Vec3.mk 6 0 0) (Vec3.mk 0 0 0) 10000)).1⟩

/-! ## Face matcher (lib/face-api-server.ts `recognizeFaceFromDescriptor`) -/

/-- A stored face template (lib/storage.ts `FaceData`). -/
structure FaceData where
  userId : String
  descriptor : List ℚ
  image : Option String
  createdAt : String
deriving DecidableEq

/-- The `bestMatch` record (`{userId, distance}`); the source stores the
square-rooted distance, the embedding its square (the two orderings
coincide on nonnegatives, so the running minimum is the same template). -/
structure FaceMatch where
  userId : String
  distanceSq : ℚ
deriving DecidableEq

/-- Translation of the distance loop (lib/face-api-server.ts 46-55):
`sum += diff * diff` over the indices below both lengths (the zip), after
which the source takes `Math.sqrt(sum)`; the embedding keeps `sum`. -/
def distSq (a b : List ℚ) : ℚ :=
  (List.zip a b).foldl (fun s p => s + (p.1 - p.2) * (p.1 - p.2)) 0

theorem distSq_nonneg (a b : List ℚ) : 0 ≤ distSq a b := by
  have key : ∀ (l : List (ℚ × ℚ)) (s : ℚ), 0 ≤ s →
      0 ≤ l.foldl (fun s p => s + (p.1 - p.2) * (p.1 - p.2)) s := by
    intro l
    induction l with
    | nil => intro s hs; simpa
    | cons p rest ih =>
      intro s hs
      simp only [List.foldl_cons]
      exact ih _ (by nlinarith [mul_self_nonneg (p.1 - p.2)])
  exact key _ 0 le_rfl

/-- `threshold = 0.6` (lib/face-api-server.ts line 35), squared because
the embedding compares squared distances. -/
def thresholdSq : ℚ := 9 / 25

/-- Bridge: a Euclidean distance `Math.sqrt(dq)` is below the source's
threshold 0.6 exactly when the squared distance is below `thresholdSq`. -/
theorem sqrt_lt_threshold_iff (dq : ℚ) :
    Real.sqrt (dq : ℝ) < 3 / 5 ↔ dq < thresholdSq := by
  rw [Real.sqrt_lt' (by norm_num), thresholdSq]
  constructor
  · intro h
    have : (dq : ℝ) < ((9 / 25 : ℚ) : ℝ) := by push_cast; linarith
    exact_mod_cast this
  · intro h
    have : (dq : ℝ) < ((9 / 25 : ℚ) : ℝ) := by exact_mod_cast h
    push_cast at this
    linarith

/-- One iteration of the `for (const face of faceData)` loop
(lib/face-api-server.ts 42-62): keep the running best; replace it when
the new distance is under the threshold and strictly smaller (ties keep
the earlier template). -/
def updateBest (q : List ℚ) (best : Option FaceMatch) (f : FaceData) : Option FaceMatch :=
  let d := distSq q f.descriptor
  if d < thresholdSq then
    match best with
    | none => some ⟨f.userId, d⟩
    | some b => if d < b.distanceSq then some ⟨f.userId, d⟩ else some b
  else best

/-- Translation of `recognizeFaceFromDescriptor`
(lib/face-api-server.ts 30-65): linear scan over the stored templates. -/
def recognizeFaceFromDescriptor (q : List ℚ) (faces : List FaceData) : Option FaceMatch :=
  faces.foldl (updateBest q) none

theorem recognize_append_singleton (q : List ℚ) (l : List FaceData) (f : FaceData) :
    recognizeFaceFromDescriptor q (l ++ [f]) =
      updateBest q (recognizeFaceFromDescriptor q l) f := by
  simp [recognizeFaceFromDescriptor, List.foldl_append]

/-- The scan returns `none` exactly when no stored template is within the
threshold. -/
theorem recognize_none_iff (faces : List FaceData) (q : List ℚ) :
    recognizeFaceFromDescriptor q faces = none ↔
      ∀ f ∈ faces, ¬(distSq q f.descriptor < thresholdSq) := by
  induction faces using List.reverseRecOn with
  | nil => simp [recognizeFaceFromDescriptor]
  | append_singleton l f ih =>
    rw [recognize_append_singleton]
    rcases hr : recognizeFaceFromDescriptor q l with _ | b
    · have hall : ∀ g ∈ l, ¬(distSq q g.descriptor < thresholdSq) := ih.mp hr
      simp only [updateBest]
      by_cases hd : distSq q f.descriptor < thresholdSq
      · rw [if_pos hd]
        constructor
        · intro h; simp at h
        · intro h
          exact absurd hd (h f (by simp))
      · rw [if_neg hd]
        constructor
        · intro _ g hg
          rw [List.mem_append] at hg
          rcases hg with hg | hg
          · exact hall g hg
          · simp only [List.mem_singleton] at hg
            subst hg
            exact hd
        · intro _; rfl
    · have hnotall : ¬ ∀ g ∈ l, ¬(distSq q g.descriptor < thresholdSq) := by
        intro hall
        have hthis := ih.mpr hall
        rw [hr] at hthis
        exact Option.noConfusion hthis
      simp only [updateBest]
      constructor
      · intro h
        by_cases hd : distSq q f.descriptor < thresholdSq
        · rw [if_pos hd] at h
          split at h <;> simp at h
        · rw [if_neg hd] at h
          simp at h
      · intro h
        exact absurd (fun g hg => h g (by simp [hg])) hnotall

/-- The scan's `some` result is a stored template within the threshold,
of minimal distance among all templates within the threshold, and (ties)
the first template attaining that minimum in store iteration order. -/
theorem recognize_some_char (faces : List FaceData) :
    ∀ (q : List ℚ) (m : FaceMatch),
      recognizeFaceFromDescriptor q faces = some m →
      ∃ i, ∃ hi : i < faces.length,
        faces[i].userId = m.userId ∧
        distSq q faces[i].descriptor = m.distanceSq ∧
        m.distanceSq < thresholdSq ∧
        (∀ k, ∀ hk : k < faces.length,
          distSq q faces[k].descriptor < thresholdSq →
          m.distanceSq ≤ distSq q faces[k].descriptor) ∧
        (∀ k, ∀ hk : k < faces.length, k < i →
          distSq q faces[k].descriptor < thresholdSq →
          m.distanceSq < distSq q faces[k].descriptor) := by
  induction faces using List.reverseRecOn with
  | nil =>
    intro q m h
    simp [recognizeFaceFromDescriptor] at h
  | append_singleton l f ih =>
    intro q m h
    rw [recognize_append_singleton] at h
    have hlast : l.length < (l ++ [f]).length := by simp
    have hgetlast : (l ++ [f])[l.length] = f := by
      simp
    have hgetleft : ∀ k, ∀ hk : k < l.length, (l ++ [f])[k] = l[k] := by
      intro k hk
      exact List.getElem_append_left hk
    rcases hr : recognizeFaceFromDescriptor q l with _ | b
    · rw [hr] at h
      have hallnone := (recognize_none_iff l q).mp hr
      simp only [updateBest] at h
      by_cases hd : distSq q f.descriptor < thresholdSq
      · rw [if_pos hd] at h
        have hm : m = ⟨f.userId, distSq q f.descriptor⟩ := by
          exact (Option.some.injEq _ _).mp h.symm
        subst hm
        refine ⟨l.length, hlast, by rw [hgetlast], by rw [hgetlast], hd, ?_, ?_⟩
        · intro k hk hq2
          rcases Nat.lt_or_ge k l.length with hkl | hkl
          · rw [hgetleft k hkl] at hq2
            exact absurd hq2 (hallnone _ (l.getElem_mem hkl))
          · have hkeq : k = l.length := by simp at hk; omega
            subst hkeq
            rw [hgetlast]
        · intro k hk hki hq2
          rw [hgetleft k hki] at hq2
          exact absurd hq2 (hallnone _ (l.getElem_mem hki))
      · rw [if_neg hd] at h
        simp at h
    · rw [hr] at h
      obtain ⟨i, hi, huid, hdist, hth, hmin, hfirst⟩ := ih q b hr
      have hileft : i < (l ++ [f]).length := by simp; omega
      simp only [updateBest] at h
      by_cases hd : distSq q f.descriptor < thresholdSq
      · rw [if_pos hd] at h
        by_cases hlt : distSq q f.descriptor < b.distanceSq
        · rw [if_pos hlt] at h
          have hm : m = ⟨f.userId, distSq q f.descriptor⟩ :=
            (Option.some.injEq _ _).mp h.symm
          subst hm
          refine ⟨l.length, hlast, by rw [hgetlast], by rw [hgetlast], hd, ?_, ?_⟩
          · intro k hk hq2
            rcases Nat.lt_or_ge k l.length with hkl | hkl
            · rw [hgetleft k hkl] at hq2 ⊢
              have hbk := hmin k hkl hq2
              exact le_of_lt (lt_of_lt_of_le hlt hbk)
            · have hkeq : k = l.length := by simp at hk; omega
              subst hkeq
              rw [hgetlast]
          · intro k hk hki hq2
            rw [hgetleft k hki] at hq2 ⊢
            have hbk := hmin k hki hq2
            exact lt_of_lt_of_le hlt hbk
        · rw [if_neg hlt] at h
          have hm : m = b := (Option.some.injEq _ _).mp h.symm
          subst hm
          refine ⟨i, hileft, ?_, ?_, hth, ?_, ?_⟩
          · rw [hgetleft i hi]; exact huid
          · rw [hgetleft i hi]; exact hdist
          · intro k hk hq2
            rcases Nat.lt_or_ge k l.length with hkl | hkl
            · rw [hgetleft k hkl] at hq2 ⊢
              exact hmin k hkl hq2
            · have hkeq : k = l.length := by simp at hk; omega
              subst hkeq
              rw [hgetlast] at hq2 ⊢
              exact not_lt.mp hlt
          · intro k hk hki hq2
            have hkl : k < l.length := by omega
            rw [hgetleft k hkl] at hq2 ⊢
            exact hfirst k hkl hki hq2
      · rw [if_neg hd] at h
        have hm : m = b := (Option.some.injEq _ _).mp h.symm
        subst hm
        refine ⟨i, hileft, ?_, ?_, hth, ?_, ?_⟩
        · rw [hgetleft i hi]; exact huid
        · rw [hgetleft i hi]; exact hdist
        · intro k hk hq2
          rcases Nat.lt_or_ge k l.length with hkl | hkl
          · rw [hgetleft k hkl] at hq2 ⊢
            exact hmin k hkl hq2
          · have hkeq : k = l.length := by simp at hk; omega
            subst hkeq
            rw [hgetlast] at hq2
            exact absurd hq2 hd
        · intro k hk hki hq2
          have hkl : k < l.length := by omega
          rw [hgetleft k hkl] at hq2 ⊢
          exact hfirst k hkl hki hq2

/-- C5: the face matcher (1) returns `none` exactly when no stored
template is strictly within the threshold; (2) otherwise returns a stored
template strictly within the threshold whose distance is minimal among
all templates within the threshold, ties broken by the first-encountered
template in store iteration order; (3) "within the threshold" for the
embedding's squared distances coincides with the source's
`Math.sqrt(sum) < 0.6`; (4) a lone template at Euclidean distance 0.59
matches with its userId; (5) a lone template at distance 0.61 yields
`none`. -/
theorem c5_face_match :
    (∀ (q : List ℚ) (faces : List FaceData),
      recognizeFaceFromDescriptor q faces = none ↔
        ∀ f ∈ faces, ¬(distSq q f.descriptor < thresholdSq)) ∧
    (∀ (q : List ℚ) (faces : List FaceData) (m : FaceMatch),
      recognizeFaceFromDescriptor q faces = some m →
      ∃ i, ∃ hi : i < faces.length,
        faces[i].userId = m.userId ∧
        distSq q faces[i].descriptor = m.distanceSq ∧
        m.distanceSq < thresholdSq ∧
        (∀ k, ∀ hk : k < faces.length,
          distSq q faces[k].descriptor < thresholdSq →
          m.distanceSq ≤ distSq q faces[k].descriptor) ∧
        (∀ k, ∀ hk : k < faces.length, k < i →
          distSq q faces[k].descriptor < thresholdSq →
          m.distanceSq < distSq q faces[k].descriptor)) ∧
    (∀ dq : ℚ, Real.sqrt (dq : ℝ) < 3 / 5 ↔ dq < thresholdSq) ∧
    (∀ (q : List ℚ) (t : FaceData),
      Real.sqrt ((distSq q t.descriptor : ℚ) : ℝ) = 59 / 100 →
        recognizeFaceFromDescriptor q [t] = some ⟨t.userId, distSq q t.descriptor⟩) ∧
    (∀ (q : List ℚ) (t : FaceData),
      Real.sqrt ((distSq q t.descriptor : ℚ) : ℝ) = 61 / 100 →
        recognizeFaceFromDescriptor q [t] = none) := by
  refine ⟨fun q faces => recognize_none_iff faces q,
    fun q faces => recognize_some_char faces q,
    sqrt_lt_threshold_iff, ?_, ?_⟩
  · intro q t h
    have h0 : (0 : ℝ) ≤ ((distSq q t.descriptor : ℚ) : ℝ) := by
      exact_mod_cast distSq_nonneg q t.descriptor
    have hsq : ((distSq q t.descriptor : ℚ) : ℝ) = (59 / 100) ^ 2 := by
      rw [← Real.sq_sqrt h0, h]
    have hval : distSq q t.descriptor = 3481 / 10000 := by
      have hcast : ((distSq q t.descriptor : ℚ) : ℝ) = ((3481 / 10000 : ℚ) : ℝ) := by
        rw [hsq]; push_cast; norm_num
      exact_mod_cast hcast
    have hlt : distSq q t.descriptor < thresholdSq := by
      rw [hval, thresholdSq]; norm_num
    simp [recognizeFaceFromDescriptor, updateBest, hlt]
  · intro q t h
    have h0 : (0 : ℝ) ≤ ((distSq q t.descriptor : ℚ) : ℝ) := by
      exact_mod_cast distSq_nonneg q t.descriptor
    have hsq : ((distSq q t.descriptor : ℚ) : ℝ) = (61 / 100) ^ 2 := by
      rw [← Real.sq_sqrt h0, h]
    have hval : distSq q t.descriptor = 3721 / 10000 := by
      have hcast : ((distSq q t.descriptor : ℚ) : ℝ) = ((3721 / 10000 : ℚ) : ℝ) := by
        rw [hsq]; push_cast; norm_num
      exact_mod_cast hcast
    have hnlt : ¬(distSq q t.descriptor < thresholdSq) := by
      rw [hval, thresholdSq]; norm_num
    simp [recognizeFaceFromDescriptor, updateBest, hnlt]

/-- Witness for C5: a lone template with descriptor `[0]` against query
`[0.59]` (distance 0.59) matches; against `[0.61]` (distance 0.61) it
does not. -/
theorem c5_face_match_witness :
    recognizeFaceFromDescriptor [(59 : ℚ) / 100]
        [FaceData.mk ("alice") [0] none ("t0")] =
      some ⟨("alice"), distSq [(59 : ℚ) / 100] [0]⟩ ∧
    recognizeFaceFromDescriptor [(61 : ℚ) / 100]
        [FaceData.mk ("alice") [0] none ("t0")] = none :=
  ⟨c5_face_match.2.2.2.1 [(59 : ℚ) / 100] (FaceData.mk ("alice") [0] none ("t0"))
      (by
        have hval : distSq [(59 : ℚ) / 100] [0] = 3481 / 10000 := by
          norm_num [distSq]
        rw [show (FaceData.mk ("alice") [0] none ("t0")).descriptor = [(0 : ℚ)] from rfl,
          hval]
        rw [show (((3481 : ℚ) / 10000 : ℚ) : ℝ) = (59 / 100) ^ 2 by push_cast; norm_num]
        rw [Real.sqrt_sq (by norm_num)]),
    c5_face_match.2.2.2.2 [(61 : ℚ) / 100] (FaceData.mk ("alice") [0] none ("t0"))
      (by
        have hval : distSq [(61 : ℚ) / 100] [0] = 3721 / 10000 := by
          norm_num [distSq]
        rw [show (FaceData.mk ("alice") [0] none ("t0")).descriptor = [(0 : ℚ)] from rfl,
          hval]
        rw [show (((3721 : ℚ) / 10000 : ℚ) : ℝ) = (61 / 100) ^ 2 by push_cast; norm_num]
        rw [Real.sqrt_sq (by norm_num)])⟩

/-! ## Client unlock flow (SafePage, app/safe/page.tsx)

The unlock flow of the safe page is a small event-driven state machine:
`safeState` (React state, reset on page reload), the stored
`recognizedUserId` (browser localStorage, which survives page reloads),
and the pending face scan started by `handleUnlock` (the face result
arrives asynchronously, at least 1000 ms after the click, while the PIN
input is already rendered because `safeState === "unlocking"`).  The
setup/enroll flow is omitted: it never touches `recognizedUserId`, never
issues the actuator-open call, and is unreachable from `unlocking`. -/

/-- `SafeState` (app/safe/page.tsx line 7). -/
inductive SafeStateK where
  | locked
  | unlocking
  | unlocked
  | setup
deriving DecidableEq

/-- The client-side state relevant to the unlock flow. -/
structure ClientState where
  safeState : SafeStateK
  recognizedUserId : Option String
  facePending : Bool
deriving DecidableEq

/-- The initial state: page freshly loaded in a browser with empty
localStorage. -/
def clientInit : ClientState := ⟨SafeStateK.locked, none, false⟩

/-- Externally observable UI events driving the unlock flow:
`unlockClick` is a press of "Unlock Safe" (enabled only while locked);
`faceResult` is the asynchronous completion of the face scan started by
`handleUnlock` (`some uid` when `/api/face/recognize` returned 200 for
user `uid`); `pinVoiceClick` is a press of "Verify PIN & Voice" with the
typed PIN, carrying the outcome `pinOk` of `/api/face/verify-pin` and the
outcome `hasAudio` of the 3-second liveness recording; `lockClick` locks
an unlocked safe; `reload` is a page reload (React state resets,
localStorage survives, pending callbacks are dropped). -/
inductive ClientInput where
  | unlockClick
  | faceResult (matchResult : Option String)
  | pinVoiceClick (pin : String) (pinOk : Bool) (hasAudio : Bool)
  | lockClick
  | reload
deriving DecidableEq

/-- Side effects issued by the flow: the PIN-verification request, the
unlock / lock event log writes, and the two actuator commands
(`fetch(esp32Url + "90")` to open, `fetch(esp32Url + "-90")` to close). -/
inductive ClientAction where
  | verifyPinRequest (userId pin : String)
  | logUnlock (userId : String)
  | logLock
  | actuatorOpen
  | actuatorClose
deriving DecidableEq

/-- One step of the unlock flow (translating `handleUnlock`, the
"Verify PIN & Voice" onClick, and `handleLock` of app/safe/page.tsx):

* `unlockClick` (rendered only when locked): set `safeState` to
  `unlocking` and start the face scan (lines 347-368).
* `faceResult` (the `setTimeout` callback, lines 368-470): on a
  recognition success store `recognizedUserId` in localStorage and keep
  `unlocking`; on any failure return to `locked` — note the failure paths
  do NOT clear a previously stored `recognizedUserId`.
* `pinVoiceClick` (input rendered only while `unlocking`, lines
  908-1029): PINs shorter than 4 digits are rejected before any request
  is made; a missing stored `recognizedUserId` blocks verification;
  otherwise `/api/face/verify-pin` is called — on failure the flow locks
  and discards the identity; on success the 3 s voice recording runs and,
  if audio was detected, the unlock event and the actuator-open command
  are issued and the safe unlocks, else the flow locks.  Every outcome of
  the click clears the stored `recognizedUserId`.
* `lockClick` (`handleLock`, lines 474-486): close actuator, log lock.
* `reload`: React state resets to the initial values; localStorage keeps
  `recognizedUserId`. -/
def clientStep (s : ClientState) (i : ClientInput) : ClientState × List ClientAction :=
  match i with
  | ClientInput.unlockClick =>
    if s.safeState = SafeStateK.locked then
      ({ s with safeState := SafeStateK.unlocking, facePending := true }, [])
    else (s, [])
  | ClientInput.faceResult r =>
    if s.facePending then
      match r with
      | some uid =>
        ({ s with recognizedUserId := some uid, facePending := false }, [])
      | none =>
        ({ s with safeState := SafeStateK.locked, facePending := false }, [])
    else (s, [])
  | ClientInput.pinVoiceClick pin pinOk hasAudio =>
    if s.safeState = SafeStateK.unlocking then
      if pin.length < 4 then (s, [])
      else
        match s.recognizedUserId with
        | none => (s, [])
        | some uid =>
          if pinOk then
            if hasAudio then
              ({ s with safeState := SafeStateK.unlocked, recognizedUserId := none },
                [ClientAction.verifyPinRequest uid pin, ClientAction.logUnlock uid,
                  ClientAction.actuatorOpen])
            else
              ({ s with safeState := SafeStateK.locked, recognizedUserId := none },
                [ClientAction.verifyPinRequest uid pin])
          else
            ({ s with safeState := SafeStateK.locked, recognizedUserId := none },
              [ClientAction.verifyPinRequest uid pin])
    else (s, [])
  | ClientInput.lockClick =>
    if s.safeState = SafeStateK.unlocked then
      ({ s with safeState := SafeStateK.locked },
        [ClientAction.actuatorClose, ClientAction.logLock])
    else (s, [])
  | ClientInput.reload => (⟨SafeStateK.locked, s.recognizedUserId, false⟩, [])

/-- The client state after processing a list of inputs. -/
def clientRunState (s : ClientState) (l : List ClientInput) : ClientState :=
  l.foldl (fun s i => (clientStep s i).1) s

/-- Whether an input is a successful face-match result. -/
def isFaceSuccess : ClientInput → Bool
  | ClientInput.faceResult (some _) => true
  | _ => false

/-- The actuator-open command is only ever issued by a
"Verify PIN & Voice" click whose PIN has at least 4 digits and verified,
whose liveness check detected audio, taken while `unlocking` with a
stored recognized identity. -/
theorem open_emission (s : ClientState) (i : ClientInput)
    (h : ClientAction.actuatorOpen ∈ (clientStep s i).2) :
    ∃ pin, i = ClientInput.pinVoiceClick pin true true ∧ 4 ≤ pin.length ∧
      s.safeState = SafeStateK.unlocking ∧ ∃ uid, s.recognizedUserId = some uid := by
  cases i with
  | unlockClick =>
    simp only [clientStep] at h
    split at h <;> simp at h
  | faceResult r =>
    simp only [clientStep] at h
    split at h
    · cases r <;> simp at h
    · simp at h
  | pinVoiceClick pin pinOk hasAudio =>
    simp only [clientStep] at h
    split at h
    case isTrue hunlocking =>
      split at h
      · simp at h
      case isFalse hlen =>
        rcases hrec : s.recognizedUserId with _ | uid
        · rw [hrec] at h
          simp at h
        · rw [hrec] at h
          cases pinOk
          · simp at h
          · cases hasAudio
            · simp at h
            · exact ⟨pin, rfl, by omega, hunlocking, uid, rfl⟩
    case isFalse => simp at h
  | lockClick =>
    simp only [clientStep] at h
    split at h <;> simp at h
  | reload =>
    simp [clientStep] at h

/-- A stored `recognizedUserId` always originates from an earlier
successful face-match result (possibly before a page reload, since
localStorage survives reloads). -/
theorem recognized_source :
    ∀ (l : List ClientInput) (uid : String),
      (clientRunState clientInit l).recognizedUserId = some uid →
      ∃ j, ∃ hj : j < l.length, l[j] = ClientInput.faceResult (some uid) := by
  intro l
  induction l using List.reverseRecOn with
  | nil =>
    intro uid h
    simp [clientRunState, clientInit] at h
  | append_singleton l i ih =>
    intro uid h
    have hstep : clientRunState clientInit (l ++ [i]) =
        (clientStep (clientRunState clientInit l) i).1 := by
      simp [clientRunState, List.foldl_append]
    rw [hstep] at h
    have hlift : (∃ j, ∃ hj : j < l.length, l[j] = ClientInput.faceResult (some uid)) →
        ∃ j, ∃ hj : j < (l ++ [i]).length,
          (l ++ [i])[j] = ClientInput.faceResult (some uid) := by
      rintro ⟨j, hj, hget⟩
      refine ⟨j, by simp; omega, ?_⟩
      rw [List.getElem_append_left hj]
      exact hget
    cases i with
    | unlockClick =>
      apply hlift; apply ih
      simp only [clientStep] at h
      split at h <;> simpa using h
    | faceResult r =>
      simp only [clientStep] at h
      split at h
      · cases r with
        | none =>
          apply hlift; apply ih
          simpa using h
        | some u =>
          have huid : u = uid := by simpa using h
          subst huid
          exact ⟨l.length, by simp, by simp⟩
      · apply hlift; apply ih; exact h
    | pinVoiceClick pin pinOk hasAudio =>
      simp only [clientStep] at h
      split at h
      · split at h
        · exact hlift (ih uid h)
        · rcases hrec : (clientRunState clientInit l).recognizedUserId with _ | u
          · rw [hrec] at h
            exact hlift (ih uid h)
          · rw [hrec] at h
            cases pinOk
            · simp at h
            · cases hasAudio <;> simp at h
      · exact hlift (ih uid h)
    | lockClick =>
      apply hlift; apply ih
      simp only [clientStep] at h
      split at h <;> simpa using h
    | reload =>
      apply hlift; apply ih
      simpa [clientStep] using h

/-- C1 (amended): in every run of the unlock flow from a fresh browser
state, the actuator-open command is issued only by a
"Verify PIN & Voice" step whose (≥ 4 digit) PIN verified and whose voice
liveness check detected audio, and only when a face match succeeded at
some strictly earlier step — but, because the recognized identity is kept
in localStorage, that face match may lie before an intervening page
reload, i.e. in an earlier page session; no failure path of any stage
issues the command. -/
theorem c1_unlock_order_amended (l : List ClientInput) (i : ClientInput)
    (h : ClientAction.actuatorOpen ∈ (clientStep (clientRunState clientInit l) i).2) :
    ∃ pin, i = ClientInput.pinVoiceClick pin true true ∧ 4 ≤ pin.length ∧
      ∃ uid, (clientRunState clientInit l).recognizedUserId = some uid ∧
        ∃ j, ∃ hj : j < l.length, l[j] = ClientInput.faceResult (some uid) := by
  obtain ⟨pin, hi, hlen, _, uid, hrec⟩ := open_emission _ _ h
  exact ⟨pin, hi, hlen, uid, hrec, recognized_source l uid hrec⟩

/-- Counterexample to C1 as stated: a face match succeeds, the page is
reloaded (localStorage keeps the recognized identity), a fresh unlock is
clicked and — during the window in which the face scan is still pending
but the PIN input is already shown — a verified PIN plus detected audio
opens the actuator.  The inputs of the post-reload session
(`[unlockClick]`, everything after the last `reload` and before the
opening click) contain no successful face match, so the open command is
issued without a face-match success in the same session. -/
theorem c1_unlock_counterexample :
    ClientAction.actuatorOpen ∈
      (clientStep
        (clientRunState clientInit
          [ClientInput.unlockClick, ClientInput.faceResult (some ("u")),
           ClientInput.reload, ClientInput.unlockClick])
        (ClientInput.pinVoiceClick ("1234") true true)).2 ∧
    [ClientInput.unlockClick].all (fun x => !(isFaceSuccess x)) = true := by
  constructor
  · decide
  · decide

/-- Witness for C1 (amended) on the minimal honest trace: unlock click,
face success, then a verified PIN with audio. -/
theorem c1_unlock_order_amended_witness :
    ∃ pin, ClientInput.pinVoiceClick ("1234") true true =
        ClientInput.pinVoiceClick pin true true ∧ 4 ≤ pin.length ∧
      ∃ uid, (clientRunState clientInit
          [ClientInput.unlockClick,
           ClientInput.faceResult (some ("u"))]).recognizedUserId = some uid ∧
        ∃ j, ∃ hj : j < ([ClientInput.unlockClick,
            ClientInput.faceResult (some ("u"))] : List ClientInput).length,
          ([ClientInput.unlockClick,
            ClientInput.faceResult (some ("u"))] : List ClientInput)[j] =
            ClientInput.faceResult (some uid) :=
  c1_unlock_order_amended
    [ClientInput.unlockClick, ClientInput.faceResult (some ("u"))]
    (ClientInput.pinVoiceClick ("1234") true true) (by decide)

/-- C7: a PIN shorter than 4 digits is rejected at the submission
boundary: the "Verify PIN & Voice" click returns without any request
(in particular no `verifyPinRequest`, hence no comparison against the
stored pinHash) and without any state change, so no verification can
succeed for such a PIN. -/
theorem c7_short_pin (s : ClientState) (pin : String) (pinOk hasAudio : Bool)
    (h : pin.length < 4) :
    clientStep s (ClientInput.pinVoiceClick pin pinOk hasAudio) = (s, []) := by
  simp only [clientStep]
  by_cases hu : s.safeState = SafeStateK.unlocking
  · rw [if_pos hu, if_pos h]
  · rw [if_neg hu]

/-- Witness for C7 at the 3-digit PIN "123". -/
theorem c7_short_pin_witness :
    clientStep clientInit (ClientInput.pinVoiceClick ("123") true true) =
      (clientInit, []) :=
  c7_short_pin clientInit ("123") true true (by decide)

/-! ## Persistence store (lib/storage.ts) and API routes -/

/-- A stored user record (lib/storage.ts `User`). -/
structure User where
  id : String
  name : String
  email : String
  passwordHash : String
  isAdmin : Bool
  faceDescriptor : Option (List ℚ)
  voicePhrase : Option String
  pinHash : Option String
  createdAt : String
deriving DecidableEq

/-- A stored event record (lib/storage.ts `Event`), with its metadata
restricted to the `reason` field written by the verified routes, the
fresh `id` omitted, and the ISO timestamp modelled as integer millis. -/
structure EventRec where
  type : String
  userId : Option String
  userName : Option String
  reason : Option String
  timestamp : ℤ
deriving DecidableEq

/-- The three JSON files of the store. -/
structure Storage where
  users : List User
  events : List EventRec
  faces : List FaceData
deriving DecidableEq

/-- JS truthiness of an optional string: `undefined`/`null`/`""` are
falsy (the `!userId || !pin` guard). -/
def falsyStr : Option String → Bool
  | none => true
  | some s => s.isEmpty

/-- `storage.getUserById` (lib/storage.ts 141-144): the first user with
the given id. -/
def getUserById (users : List User) (id : String) : Option User :=
  users.find? (fun u => u.id == id)

/-- Translation of `storage.getEvents` (lib/storage.ts 181-188): sort by
timestamp descending (JS `Array.prototype.sort` with comparator
`b.getTime() - a.getTime()`; stable per ES2019, modelled by the stable
`mergeSort`), then `slice(0, limit)` when `limit` is truthy.  NB `0` is
falsy in JS, so a supplied limit of 0 behaves as "no limit".  (Negative
limits are out of scope of the model: the verified callers pass natural
numbers.) -/
def getEvents (events : List EventRec) (limit : Option ℕ) : List EventRec :=
  let sorted := events.mergeSort (fun a b => decide (b.timestamp ≤ a.timestamp))
  match limit with
  | some l => if l = 0 then sorted else sorted.take l
  | none => sorted

/-- Translation of `storage.createEvent` (lib/storage.ts 190-200): the
source reads the current events through `this.getEvents()` — which sorts
them — pushes the new event and writes the result back. -/
def createEvent (events : List EventRec) (e : EventRec) : List EventRec :=
  getEvents events none ++ [e]

/-- The HTTP response of a route, reduced to status and error string. -/
structure ApiResponse where
  status : ℕ
  error : Option String
deriving DecidableEq

/-- Translation of `POST /api/face/verify-pin`
(app/api/face/verify-pin/route.ts): reject missing/empty userId or PIN
with 400 (before touching the store), 404 for an unknown user, 400 for a
user without a pinHash; compare the PIN via the bcrypt oracle `verify`
(`verifyPassword`), logging one `unauthorized_face` event with reason
"Invalid PIN" and answering 401 on mismatch, 200 on success.  The store
is returned alongside the response to make (non-)mutation explicit. -/
def verifyPinPOST (verify : String → String → Bool) (st : Storage)
    (userId pin : Option String) (now : ℤ) : ApiResponse × Storage :=
  if falsyStr userId || falsyStr pin then
    (⟨400, some ("UserId and PIN are required")⟩, st)
  else
    let uid := userId.getD ("")
    let p := pin.getD ("")
    match getUserById st.users uid with
    | none => (⟨404, some ("User not found")⟩, st)
    | some user =>
      match user.pinHash with
      | none => (⟨400, some ("PIN not set for this user")⟩, st)
      | some ph =>
        if verify p ph then (⟨200, none⟩, st)
        else
          let evt : EventRec :=
            EventRec.mk ("unauthorized_face") (some uid) (some user.name)
              (some ("Invalid PIN")) now
          (⟨401, some ("Invalid PIN")⟩,
            { st with events := createEvent st.events evt })

/-- Translation of `POST /api/face/recognize`
(app/api/face/recognize/route.ts): reject a missing descriptor with 400
(before touching the store); otherwise run the matcher, logging one
`unauthorized_face` event and answering 401 when no template matches,
200 with the match otherwise. -/
def recognizePOST (st : Storage) (descriptor : Option (List ℚ)) (now : ℤ) :
    ApiResponse × Storage :=
  match descriptor with
  | none => (⟨400, some ("descriptor is required")⟩, st)
  | some d =>
    match recognizeFaceFromDescriptor d st.faces with
    | none =>
      let evt : EventRec :=
        EventRec.mk ("unauthorized_face") none none
          (some ("No matching face found")) now
      (⟨401, some ("Face not recognized")⟩,
        { st with events := createEvent st.events evt })
    | some _ => (⟨200, none⟩, st)

/-- Translation of the faces-file part of `storage.saveFaceData`
(lib/storage.ts 207-231): replace the first entry with the same userId
in place (`faces[existingIndex] = faceData`), or push a new entry when
none exists.  (The source additionally mirrors the descriptor onto the
user record via `updateUser`; that does not touch the face store.) -/
def saveFaceData (faces : List FaceData) (userId : String) (descriptor : List ℚ)
    (image : Option String) (now : String) : List FaceData :=
  let fd : FaceData := ⟨userId, descriptor, image, now⟩
  match faces.findIdx? (fun f => f.userId == userId) with
  | some i => faces.set i fd
  | none => faces ++ [fd]

/-- C6: a face-match success followed by a PIN that fails bcrypt
verification ends with: (server) the verify-pin route answers 401
"Invalid PIN" and appends exactly one `unauthorized_face` event with
reason "Invalid PIN", touching nothing else in the store; (client) the
"Verify PIN & Voice" click leaves the session `locked` with the
recognized identity discarded, and its only side effect is the
verification request itself — no actuator command is issued. -/
theorem c6_invalid_pin :
    (∀ (verify : String → String → Bool) (st : Storage) (uid pin : String)
      (u : User) (ph : String) (now : ℤ),
      falsyStr (some uid) = false →
      falsyStr (some pin) = false →
      getUserById st.users uid = some u →
      u.pinHash = some ph →
      verify pin ph = false →
      verifyPinPOST verify st (some uid) (some pin) now =
        (⟨401, some ("Invalid PIN")⟩,
          Storage.mk st.users
            (createEvent st.events
              (EventRec.mk ("unauthorized_face") (some uid) (some u.name)
                (some ("Invalid PIN")) now))
            st.faces)) ∧
    (∀ (s : ClientState) (uid pin : String) (hasAudio : Bool),
      s.safeState = SafeStateK.unlocking →
      s.recognizedUserId = some uid →
      ¬(pin.length < 4) →
      clientStep s (ClientInput.pinVoiceClick pin false hasAudio) =
        ({ s with safeState := SafeStateK.locked, recognizedUserId := none },
          [ClientAction.verifyPinRequest uid pin])) := by
  constructor
  · intro verify st uid pin u ph now hfu hfp hfind hph hverify
    simp only [verifyPinPOST, hfu, hfp, Bool.or_self, Bool.false_eq_true, if_false,
      Option.getD_some, hfind, hph, hverify]
  · intro s uid pin hasAudio hsafe hrec hlen
    simp only [clientStep, if_pos hsafe, if_neg hlen, hrec,
      Bool.false_eq_true, if_false]

/-- C8: a face-recognition request with a missing descriptor and a
PIN-verification request with a missing userId or a missing PIN are
rejected immediately with HTTP 400 and the store — users, events, face
templates — is returned exactly as it was: nothing is mutated and no
event is logged. -/
theorem c8_validation_rejection (st : Storage) (verify : String → String → Bool)
    (userId pin : Option String) (now : ℤ) :
    recognizePOST st none now = (⟨400, some ("descriptor is required")⟩, st) ∧
    verifyPinPOST verify st none pin now =
      (⟨400, some ("UserId and PIN are required")⟩, st) ∧
    verifyPinPOST verify st userId none now =
      (⟨400, some ("UserId and PIN are required")⟩, st) := by
  refine ⟨rfl, rfl, ?_⟩
  simp only [verifyPinPOST, falsyStr, Bool.or_true, if_true]

/-- Witness for C6: user "u" with pinHash "H" under an always-failing
bcrypt oracle, and a client session in `unlocking` with recognized
identity "u" receiving a failed verification. -/
theorem c6_invalid_pin_witness :
    verifyPinPOST (fun _ _ => false)
        (Storage.mk [User.mk ("u") ("Alice") ("a@x") ("pw") false none none
          (some ("H")) ("t0")] [] [])
        (some ("u")) (some ("1234")) 5 =
      (⟨401, some ("Invalid PIN")⟩,
        Storage.mk
          [User.mk ("u") ("Alice") ("a@x") ("pw") false none none
            (some ("H")) ("t0")]
          (createEvent []
            (EventRec.mk ("unauthorized_face") (some ("u")) (some ("Alice"))
              (some ("Invalid PIN")) 5))
          []) ∧
    clientStep (ClientState.mk SafeStateK.unlocking (some ("u")) false)
        (ClientInput.pinVoiceClick ("1234") false true) =
      (ClientState.mk SafeStateK.locked none false,
        [ClientAction.verifyPinRequest ("u") ("1234")]) :=
  ⟨c6_invalid_pin.1 (fun _ _ => false)
      (Storage.mk [User.mk ("u") ("Alice") ("a@x") ("pw") false none none
        (some ("H")) ("t0")] [] [])
      ("u") ("1234")
      (User.mk ("u") ("Alice") ("a@x") ("pw") false none none
        (some ("H")) ("t0"))
      ("H") 5 (by decide) (by decide) (by decide) rfl rfl,
    c6_invalid_pin.2 (ClientState.mk SafeStateK.unlocking (some ("u")) false)
      ("u") ("1234") true rfl rfl (by decide)⟩

theorem saveFaceData_cons_hit (f : FaceData) (rest : List FaceData) (uid : String)
    (d : List ℚ) (img : Option String) (now : String) (h : f.userId = uid) :
    saveFaceData (f :: rest) uid d img now = FaceData.mk uid d img now :: rest := by
  simp [saveFaceData, List.findIdx?_cons, h]

theorem saveFaceData_cons_miss (f : FaceData) (rest : List FaceData) (uid : String)
    (d : List ℚ) (img : Option String) (now : String) (h : (f.userId == uid) = false) :
    saveFaceData (f :: rest) uid d img now = f :: saveFaceData rest uid d img now := by
  simp only [saveFaceData, List.findIdx?_cons, h, Bool.false_eq_true, if_false,
    List.findIdx?_start_succ]
  rcases hfind : rest.findIdx? (fun g => g.userId == uid) with _ | i
  · simp [hfind]
  · simp [hfind]

/-- Re-registering a user who already has a stored template leaves the
multiset (indeed the sequence) of stored userIds unchanged. -/
theorem saveFaceData_map_userId (faces : List FaceData) (uid : String)
    (d : List ℚ) (img : Option String) (now : String)
    (hmem : ∃ f ∈ faces, f.userId = uid) :
    (saveFaceData faces uid d img now).map FaceData.userId =
      faces.map FaceData.userId := by
  induction faces with
  | nil =>
    rcases hmem with ⟨f, hf, _⟩
    simp at hf
  | cons f rest ih =>
    by_cases hf : f.userId = uid
    · rw [saveFaceData_cons_hit _ _ _ _ _ _ hf]
      simp [hf]
    · have hf2 : (f.userId == uid) = false := by
        simp [hf]
      rw [saveFaceData_cons_miss _ _ _ _ _ _ hf2]
      have hmem2 : ∃ g ∈ rest, g.userId = uid := by
        rcases hmem with ⟨g, hg, hgu⟩
        rcases List.mem_cons.mp hg with rfl | hg2
        · exact absurd hgu hf
        · exact ⟨g, hg2, hgu⟩
      simp [ih hmem2]

/-- C9: when the face store — whose userIds are unique, the invariant
maintained by `saveFaceData` itself from the empty store — already holds
a template for `uid`, re-registering replaces it in place: the total
template count is unchanged, exactly one entry for `uid` remains, and
the uniqueness invariant is preserved. -/
theorem c9_face_overwrite (faces : List FaceData) (uid : String) (d : List ℚ)
    (img : Option String) (now : String)
    (hmem : ∃ f ∈ faces, f.userId = uid)
    (hnodup : (faces.map FaceData.userId).Nodup) :
    (saveFaceData faces uid d img now).length = faces.length ∧
    ((saveFaceData faces uid d img now).filter (fun f => f.userId == uid)).length = 1 ∧
    ((saveFaceData faces uid d img now).map FaceData.userId).Nodup := by
  have hmap := saveFaceData_map_userId faces uid d img now hmem
  have hcount : ∀ l : List FaceData,
      (l.filter (fun f => f.userId == uid)).length = (l.map FaceData.userId).count uid := by
    intro l
    rw [List.count, ← List.countP_eq_length_filter, List.countP_map]
    rfl
  refine ⟨?_, ?_, ?_⟩
  · have h1 := congrArg List.length hmap
    simpa using h1
  · rw [hcount, hmap]
    rcases hmem with ⟨f, hf, hfu⟩
    exact List.count_eq_one_of_mem hnodup (List.mem_map.mpr ⟨f, hf, hfu⟩)
  · rw [hmap]
    exact hnodup

/-- Witness for C9: re-registering "u" in a one-template store keeps one
template for "u" and the same total. -/
theorem c9_face_overwrite_witness :
    (saveFaceData [FaceData.mk ("u") [0] none ("t0")] ("u") [1] none ("t1")).length =
      [FaceData.mk ("u") [0] none ("t0")].length ∧
    ((saveFaceData [FaceData.mk ("u") [0] none ("t0")] ("u") [1] none ("t1")).filter
      (fun f => f.userId == ("u"))).length = 1 ∧
    ((saveFaceData [FaceData.mk ("u") [0] none ("t0")] ("u") [1] none
      ("t1")).map FaceData.userId).Nodup :=
  c9_face_overwrite [FaceData.mk ("u") [0] none ("t0")] ("u") [1] none ("t1")
    (by decide) (by decide)

/-- Counterexample to C10 as stated: a supplied limit of 0 is falsy in
JS (`limit ? sorted.slice(0, limit) : sorted`), so `getEvents` returns
ALL events — here 1 event instead of the claimed `min 0 1 = 0`. -/
theorem c10_getEvents_counterexample :
    (getEvents [EventRec.mk ("lock") none none none 0] (some 0)).length = 1 ∧
    ¬((getEvents [EventRec.mk ("lock") none none none 0] (some 0)).length =
        min 0 [EventRec.mk ("lock") none none none 0].length) := by
  have h1 : getEvents [EventRec.mk ("lock") none none none 0] (some 0) =
      [EventRec.mk ("lock") none none none 0] := by
    simp [getEvents]
  constructor <;> simp [h1]

/-- C10 (amended): `getEvents` returns the events sorted by timestamp
newest-first (a permutation of the store, never the raw insertion
order); a supplied POSITIVE limit yields the `min limit total` most
recent events (the prefix of the sorted list); a supplied limit of 0 is
treated like an absent limit and yields all events, still sorted. -/
theorem c10_getEvents_amended :
    (∀ events : List EventRec,
      (getEvents events none).Pairwise (fun a b => b.timestamp ≤ a.timestamp) ∧
      (getEvents events none).Perm events) ∧
    (∀ (events : List EventRec) (l : ℕ), 0 < l →
      getEvents events (some l) = (getEvents events none).take l ∧
      (getEvents events (some l)).length = min l events.length) ∧
    (∀ events : List EventRec, getEvents events (some 0) = getEvents events none) := by
  have pairwise_raw : ∀ events : List EventRec,
      (events.mergeSort (fun a b => decide (b.timestamp ≤ a.timestamp))).Pairwise
        (fun a b => (decide (b.timestamp ≤ a.timestamp)) = true) := by
    intro events
    apply List.sorted_mergeSort
    · intro a b c hab hbc
      simp only [decide_eq_true_eq] at hab hbc ⊢
      omega
    · intro a b
      simp only [Bool.or_eq_true, decide_eq_true_eq]
      omega
  refine ⟨?_, ?_, ?_⟩
  · intro events
    constructor
    · exact (pairwise_raw events).imp (fun h => by simpa using h)
    · exact List.mergeSort_perm events _
  · intro events l hl
    have hne : ¬(l = 0) := by omega
    constructor
    · simp [getEvents, hne]
    · simp only [getEvents, hne, if_false, List.length_take]
      rw [(List.mergeSort_perm events
        (fun a b => decide (b.timestamp ≤ a.timestamp))).length_eq]
  · intro events
    simp [getEvents]

/-- Witness for C10 (amended) at two events and limit 1. -/
theorem c10_getEvents_amended_witness :
    getEvents [EventRec.mk ("a") none none none 1,
        EventRec.mk ("b") none none none 2] (some 1) =
      (getEvents [EventRec.mk ("a") none none none 1,
        EventRec.mk ("b") none none none 2] none).take 1 ∧
    (getEvents [EventRec.mk ("a") none none none 1,
        EventRec.mk ("b") none none none 2] (some 1)).length =
      min 1 ([EventRec.mk ("a") none none none 1,
        EventRec.mk ("b") none none none 2] : List EventRec).length :=
  c10_getEvents_amended.2.1
    [EventRec.mk ("a") none none none 1, EventRec.mk ("b") none none none 2]
    1 (by decide)

end SmartSafe
